import Mathlib

/-!
Shallow embedding of the LC-3 virtual machine from `src/lib.rs` of the
`lc3-vm` crate.  Machine words are modelled as `Nat` values kept below
`2^16`; Rust's overflow-checked `+` on `u16` (which aborts the process on
overflow under the default dev profile) is modelled by `checkedAdd`
returning `Option`, and `u16::wrapping_add` by `wrapAdd`.  Code paths
that abort (decode of a reserved opcode or an unsupported trap vector,
arithmetic overflow, a failed numeric parse) are modelled as `none`.
The external reader and writer collaborators are byte lists.
-/

namespace LC3

/-- `u16::wrapping_add` from the source: addition modulo `2^16`. -/
def wrapAdd (a b : Nat) : Nat :=
  (a + b) % 65536

/-- Rust `+` on `u16` values: overflow aborts (dev profile), modelled as
`none`; otherwise the exact sum. -/
def checkedAdd (a b : Nat) : Option Nat :=
  if a + b < 65536 then some (a + b) else none

/-- `enum Reg` from `src/lib.rs`: eight general-purpose registers, the
program counter `Rpc` and the condition register `Rcnd`. -/
inductive Reg : Type where
  | r0 | r1 | r2 | r3 | r4 | r5 | r6 | r7 | rpc | rcnd
  deriving DecidableEq, Repr

/-- `impl From<u16> for Reg`: values 0..7 map to `R0..R7`; the source
aborts (`panic`) for any other value, modelled as `none`.  Every call
site masks its argument with `& 7`, so the abort is unreachable there. -/
def regOfNat (v : Nat) : Option Reg :=
  match v with
  | 0 => some .r0
  | 1 => some .r1
  | 2 => some .r2
  | 3 => some .r3
  | 4 => some .r4
  | 5 => some .r5
  | 6 => some .r6
  | 7 => some .r7
  | _ => none

/-- `Reg::dr`: bits 11..9 of the instruction word. -/
def Reg.dr (instruction : Nat) : Option Reg :=
  regOfNat ((instruction >>> 9) &&& 7)

/-- `Reg::sr1`: bits 8..6 of the instruction word. -/
def Reg.sr1 (instruction : Nat) : Option Reg :=
  regOfNat ((instruction >>> 6) &&& 7)

/-- `Reg::sr2`: bits 2..0 of the instruction word. -/
def Reg.sr2 (instruction : Nat) : Option Reg :=
  regOfNat (instruction &&& 7)

/-- `Reg::imm`: the low 5 bits of the instruction word. -/
def imm (instruction : Nat) : Nat :=
  instruction &&& 31

/-- `Reg::sext`: if bit `b-1` of `n` is 1, OR `n` with 1s above bit
`b-1` (the `u16` shift `0xFFFF << b` truncates to 16 bits), else `n`. -/
def sext (n : Nat) (b : Nat) : Nat :=
  if (n >>> (b - 1)) &&& 1 = 1 then n ||| ((65535 <<< b) % 65536) else n

/-- `Reg::poff9`: the low 9 bits of the word (no sign extension). -/
def poff9 (n : Nat) : Nat :=
  n &&& 0x1FF

/-- `Reg::poff11`: the low 11 bits of the word (no sign extension). -/
def poff11 (n : Nat) : Nat :=
  n &&& 0x7FF

/-- `Reg::poff`: the low 6 bits of the word (no sign extension). -/
def poff (n : Nat) : Nat :=
  n &&& 0x3F

/-- `Reg::sextimm`: the 5-bit immediate, sign-extended. -/
def sextimm (n : Nat) : Nat :=
  sext (imm n) 5

/-- `Reg::get_nth_bit`. -/
def getNthBit (value : Nat) (n : Nat) : Bool :=
  ((value >>> n) &&& 1) == 1

/-- `Reg::fimm`: bit 5, the immediate-mode flag of ADD/AND. -/
def fimm (instruction : Nat) : Bool :=
  getNthBit instruction 5

/-- `Reg::fncd`: bits 11..9, the branch condition mask. -/
def fncd (instruction : Nat) : Nat :=
  (instruction >>> 9) &&& 7

/-- The decoded instruction values of `src/lib.rs` (structs `AddConst`,
`AddReg`, ..., `TrapOutu16`) as one inductive type. -/
inductive Instr : Type where
  | addConst (dr sr : Reg) (value : Nat)
  | addReg (dr sr1 sr2 : Reg)
  | andConst (dr sr : Reg) (value : Nat)
  | andReg (dr sr1 sr2 : Reg)
  | ld (dr : Reg) (offset : Nat)
  | ldi (dr : Reg) (offset : Nat)
  | ldr (dr base : Reg) (offset : Nat)
  | lea (dr : Reg) (offset : Nat)
  | st (sr : Reg) (offset : Nat)
  | sti (sr : Reg) (offset : Nat)
  | str (sr base : Reg) (offset : Nat)
  | not (dr sr : Reg)
  | jmp (base : Reg)
  | jsrr (base : Reg)
  | jsr (offset : Nat)
  | br (offset nzp : Nat)
  | trapGetC
  | trapOutC
  | trapPuts
  | trapPutsp
  | trapIn
  | trapHalt
  | trapInu16
  | trapOutu16
  deriving DecidableEq, Repr

/-- `impl From<u16> for Box<dyn Instruction>`: the decoder.  Opcodes
`0b1000` (return-from-interrupt) and `0b1101` (unused) fall into the
catch-all abort, as does a TRAP word whose low-8-bit vector is outside
`0x20..0x27`; aborts are modelled as `none`. -/
def decode (instruction : Nat) : Option Instr :=
  match instruction >>> 12 with
  | 0 => some (.br (poff9 instruction) (fncd instruction))
  | 1 =>
    if fimm instruction then
      (Reg.dr instruction).bind fun dr =>
      (Reg.sr1 instruction).map fun sr =>
      Instr.addConst dr sr (sextimm instruction)
    else
      (Reg.dr instruction).bind fun dr =>
      (Reg.sr1 instruction).bind fun s1 =>
      (Reg.sr2 instruction).map fun s2 =>
      Instr.addReg dr s1 s2
  | 2 =>
    (Reg.dr instruction).map fun dr =>
    Instr.ld dr (poff9 instruction)
  | 3 =>
    (Reg.dr instruction).map fun sr =>
    Instr.st sr (poff9 instruction)
  | 4 =>
    if getNthBit instruction 11 then
      some (.jsr (poff11 instruction))
    else
      (Reg.sr1 instruction).map fun base =>
      Instr.jsrr base
  | 5 =>
    if fimm instruction then
      (Reg.dr instruction).bind fun dr =>
      (Reg.sr1 instruction).map fun sr =>
      Instr.andConst dr sr (sextimm instruction)
    else
      (Reg.dr instruction).bind fun dr =>
      (Reg.sr1 instruction).bind fun s1 =>
      (Reg.sr2 instruction).map fun s2 =>
      Instr.andReg dr s1 s2
  | 6 =>
    (Reg.dr instruction).bind fun dr =>
    (Reg.sr1 instruction).map fun base =>
    Instr.ldr dr base (poff instruction)
  | 7 =>
    (Reg.dr instruction).bind fun sr =>
    (Reg.sr1 instruction).map fun base =>
    Instr.str sr base (poff instruction)
  | 9 =>
    (Reg.dr instruction).bind fun dr =>
    (Reg.sr1 instruction).map fun sr =>
    Instr.not dr sr
  | 10 =>
    (Reg.dr instruction).map fun dr =>
    Instr.ldi dr (poff9 instruction)
  | 11 =>
    (Reg.dr instruction).map fun sr =>
    Instr.sti sr (poff9 instruction)
  | 12 =>
    (Reg.sr1 instruction).map fun base =>
    Instr.jmp base
  | 14 =>
    (Reg.dr instruction).map fun dr =>
    Instr.lea dr (poff9 instruction)
  | 15 =>
    match instruction &&& 255 with
    | 0x20 => some .trapGetC
    | 0x21 => some .trapOutC
    | 0x22 => some .trapPuts
    | 0x23 => some .trapIn
    | 0x24 => some .trapPutsp
    | 0x25 => some .trapHalt
    | 0x26 => some .trapInu16
    | 0x27 => some .trapOutu16
    | _ => none
  | _ => none

/-- `struct VM`: memory (65536 cells, here a function on addresses),
the register file, the halt flag, and the reader/writer collaborators
as byte lists (`writer` holds the bytes written so far). -/
structure VM : Type where
  mem : Nat → Nat
  regs : Reg → Nat
  halt : Bool
  reader : List Nat
  writer : List Nat

/-- `Memory::read` from `src/lib.rs`: a plain array lookup at every
address, with no special case and no side effect. -/
def memRead (s : VM) (address : Nat) : Nat :=
  s.mem address

/-- `Memory::write`. -/
def memWrite (s : VM) (address val : Nat) : VM :=
  { s with mem := fun a => if a = address then val else s.mem a }

/-- `registers.insert(r, v)`. -/
def setReg (s : VM) (r : Reg) (v : Nat) : VM :=
  { s with regs := fun x => if x = r then v else s.regs x }

/-- `VM::inc_rpc`: `registers[Rpc] + 1` with Rust's checked `+`. -/
def inc_rpc (s : VM) : Option VM :=
  (checkedAdd (s.regs .rpc) 1).map (setReg s .rpc)

/-- `VM::uf`: update the condition register from register `r`:
`1 << 1` if the value is zero, `1 << 2` if bit 15 is set, else `1 << 0`. -/
def uf (s : VM) (r : Reg) : VM :=
  if s.regs r = 0 then setReg s .rcnd 2
  else if (s.regs r) >>> 15 = 1 then setReg s .rcnd 4
  else setReg s .rcnd 1

/-- `vm.reader.read(&mut buf)` with a 1-byte buffer initialised to 0:
yields the next byte and the advanced reader, or byte 0 when the reader
is exhausted (the buffer keeps its zero). -/
def readByte (s : VM) : Nat × VM :=
  match s.reader with
  | [] => (0, s)
  | b :: rest => (b, { s with reader := rest })

/-- `writer.write_all` of a single byte. -/
def writeByte (s : VM) (b : Nat) : VM :=
  { s with writer := s.writer ++ [b] }

/-- `writer.write_all` of a byte slice. -/
def writeBytes (s : VM) (l : List Nat) : VM :=
  { s with writer := s.writer ++ l }

/-- The loop of `TrapPuts::execute`: while the current cell is nonzero,
write its low byte, then step to the next cell; both `i += 1` and
`address + i` use Rust's checked `+`.  The fuel only bounds the loop
and is chosen large enough that checked-add overflow fires first. -/
def putsLoop (fuel : Nat) (s : VM) (address i c : Nat) : Option VM :=
  match fuel with
  | 0 => none
  | fuel + 1 =>
    if c = 0 then some s
    else
      let s1 := writeByte s (c % 256)
      match checkedAdd i 1 with
      | none => none
      | some i1 =>
        match checkedAdd address i1 with
        | none => none
        | some a => putsLoop fuel s1 address i1 (memRead s1 a)

/-- The loop of `TrapPutsp::execute`: like `putsLoop` but each nonzero
cell emits its high byte then its low byte. -/
def putspLoop (fuel : Nat) (s : VM) (address i c : Nat) : Option VM :=
  match fuel with
  | 0 => none
  | fuel + 1 =>
    if c = 0 then some s
    else
      let s1 := writeBytes s [c >>> 8, c &&& 255]
      match checkedAdd i 1 with
      | none => none
      | some i1 =>
        match checkedAdd address i1 with
        | none => none
        | some a => putspLoop fuel s1 address i1 (memRead s1 a)

/-- The read loop of `TrapInu16::execute`: consume bytes until a
newline (0x0A), keeping the ASCII digits; an exhausted reader would
re-deliver the previous non-newline byte forever (the source spins),
modelled as `none`.  Returns the digits and the remaining reader. -/
def inu16Loop : List Nat → List Nat → Option (List Nat × List Nat)
  | [], _ => none
  | b :: rest, acc =>
    let acc1 := if 48 ≤ b ∧ b ≤ 57 then acc ++ [b] else acc
    if b = 10 then some (acc1, rest) else inu16Loop rest acc1

/-- `u16::from_str_radix(digits, 10)` on a digit string: the
accumulated value, or `none` (abort via `expect`) when the string is
empty or the value does not fit in 16 bits. -/
def parseU16 (digits : List Nat) : Option Nat :=
  match digits with
  | [] => none
  | _ =>
    let n := digits.foldl (fun acc d => acc * 10 + (d - 48)) 0
    if n < 65536 then some n else none

/-- `u16::to_string` as ASCII bytes, most significant digit first. -/
def decBytes (n : Nat) : List Nat :=
  if n < 10 then [n + 48]
  else decBytes (n / 10) ++ [n % 10 + 48]
  decreasing_by exact Nat.div_lt_self (by omega) (by omega)

/-- `Instruction::execute` of every decoded instruction value, in
source order of effects.  Register-writing instructions insert the
result, call `uf`, then `inc_rpc`; aborts (checked-add overflow, parse
failure, a spinning input loop) are `none`. -/
def execute (i : Instr) (s : VM) : Option VM :=
  match i with
  | .addConst dr sr value =>
    inc_rpc (uf (setReg s dr (wrapAdd (s.regs sr) value)) dr)
  | .addReg dr sr1 sr2 =>
    inc_rpc (uf (setReg s dr (wrapAdd (s.regs sr1) (s.regs sr2))) dr)
  | .andConst dr sr value =>
    inc_rpc (uf (setReg s dr (Nat.land (s.regs sr) value)) dr)
  | .andReg dr sr1 sr2 =>
    inc_rpc (uf (setReg s dr (Nat.land (s.regs sr1) (s.regs sr2))) dr)
  | .ld dr offset =>
    match checkedAdd (s.regs .rpc) offset with
    | none => none
    | some address =>
      inc_rpc (uf (setReg s dr (memRead s address)) dr)
  | .ldi dr offset =>
    match checkedAdd (s.regs .rpc) offset with
    | none => none
    | some address1 =>
      inc_rpc (uf (setReg s dr (memRead s (memRead s address1))) dr)
  | .ldr dr base offset =>
    match checkedAdd (s.regs base) offset with
    | none => none
    | some address =>
      inc_rpc (uf (setReg s dr (memRead s address)) dr)
  | .lea dr offset =>
    match checkedAdd (s.regs .rpc) offset with
    | none => none
    | some address =>
      inc_rpc (uf (setReg s dr address) dr)
  | .st sr offset =>
    match checkedAdd (s.regs .rpc) offset with
    | none => none
    | some address =>
      inc_rpc (memWrite s address (s.regs sr))
  | .sti sr offset =>
    match checkedAdd (s.regs .rpc) offset with
    | none => none
    | some address1 =>
      inc_rpc (memWrite s (memRead s address1) (s.regs sr))
  | .str sr base offset =>
    match checkedAdd (s.regs base) offset with
    | none => none
    | some address =>
      inc_rpc (memWrite s address (s.regs sr))
  | .not dr sr =>
    inc_rpc (uf (setReg s dr (Nat.xor (s.regs sr) 65535)) dr)
  | .jmp base =>
    some (setReg s .rpc (s.regs base))
  | .jsrr base =>
    let rpc := s.regs .rpc
    let s1 := setReg s .r7 rpc
    some (setReg s1 .rpc (s1.regs base))
  | .jsr offset =>
    let rpc := s.regs .rpc
    let s1 := setReg s .r7 rpc
    match checkedAdd (s1.regs .rpc) offset with
    | none => none
    | some n => some (setReg s1 .rpc n)
  | .br offset nzp =>
    if 0 < Nat.land nzp (s.regs .rcnd) then
      some (setReg s .rpc (wrapAdd (s.regs .rpc) offset))
    else inc_rpc s
  | .trapGetC =>
    let p := readByte s
    inc_rpc (setReg p.2 .r0 p.1)
  | .trapOutC =>
    inc_rpc (writeByte s ((s.regs .r0) % 256))
  | .trapPuts =>
    let address := s.regs .r0
    match putsLoop 65537 s address 0 (memRead s address) with
    | none => none
    | some s1 => inc_rpc s1
  | .trapPutsp =>
    let address := s.regs .r0
    match putspLoop 65537 s address 0 (memRead s address) with
    | none => none
    | some s1 => inc_rpc s1
  | .trapIn =>
    let p := readByte s
    let s1 := setReg p.2 .r0 p.1
    inc_rpc (writeByte s1 p.1)
  | .trapHalt =>
    some { s with halt := true }
  | .trapInu16 =>
    match inu16Loop s.reader [] with
    | none => none
    | some (digits, rest) =>
      match parseU16 digits with
      | none => none
      | some n => inc_rpc (setReg { s with reader := rest } .r0 n)
  | .trapOutu16 =>
    inc_rpc (writeBytes s (decBytes (s.regs .r0)))

/-- One iteration of the `VM::run` loop body: read the word at the
address in PC, decode it, execute it.  Note that the loop itself never
touches PC; each instruction's `execute` advances it (or not). -/
def step (s : VM) : Option VM :=
  match decode (memRead s (s.regs .rpc)) with
  | none => none
  | some op => execute op s

/-- `VM::run`: iterate `step` while the halt flag is clear.  `fuel`
bounds the number of iterations; a `some` result was reached by the
loop exiting on `halt`. -/
def run (fuel : Nat) (s : VM) : Option VM :=
  match fuel with
  | 0 => if s.halt then some s else none
  | fuel + 1 =>
    if s.halt then some s
    else
      match step s with
      | none => none
      | some s1 => run fuel s1

/-- `PC_START` from the source. -/
def PC_START : Nat := 0x3000

/-- `impl Default for VM`: zeroed memory, all registers 0 except
`Rpc = PC_START`, halt flag clear, empty reader and writer. -/
def defaultVM : VM :=
  { mem := fun _ => 0
    regs := fun r => match r with | .rpc => PC_START | _ => 0
    halt := false
    reader := []
    writer := [] }

/-- The value `VM::uf` stores in the condition register for a zero
result: `1 << 1`. -/
def FL_ZRO : Nat := 2

/-- `Instr.dest`: the general-purpose destination register of the
instructions that write one (ADD, AND, NOT, LD, LDI, LDR, LEA). -/
def Instr.dest : Instr → Option Reg
  | .addConst dr _ _ => some dr
  | .addReg dr _ _ => some dr
  | .andConst dr _ _ => some dr
  | .andReg dr _ _ => some dr
  | .ld dr _ => some dr
  | .ldi dr _ => some dr
  | .ldr dr _ _ => some dr
  | .lea dr _ => some dr
  | .not dr _ => some dr
  | _ => none

/-- Whether a register is one of the eight general-purpose ones. -/
def Reg.isGPR : Reg → Bool
  | .rpc => false
  | .rcnd => false
  | _ => true

/-- The memory-reading instructions (LD, LDI, LDR). -/
def Instr.isLoad : Instr → Bool
  | .ld _ _ => true
  | .ldi _ _ => true
  | .ldr _ _ _ => true
  | _ => false

/-- The words a decode aborts on: the two reserved opcodes and TRAP
words with an unsupported vector. -/
def badWord (w : Nat) : Prop :=
  w >>> 12 = 8 ∨ w >>> 12 = 13 ∨
    (w >>> 12 = 15 ∧ ((w &&& 255) < 0x20 ∨ 0x27 < (w &&& 255)))

/-- The four-word sample program `ADD R1,R1,#3; ADD R2,R2,#4;
ADD R0,R1,R2; HALT` laid out from `PC_START`. -/
def prog9 : Nat → Nat := fun a =>
  if a = 0x3000 then 0x1263
  else if a = 0x3001 then 0x14A4
  else if a = 0x3002 then 0x1042
  else if a = 0x3003 then 0xF025
  else 0

/-- The default VM with the sample program loaded. -/
def s9 : VM := { defaultVM with mem := prog9 }

/-- A VM about to execute `JSR +2` (word 0x4802) at `PC = 0x3000`. -/
def jsrState : VM :=
  { defaultVM with mem := fun a => if a = 0x3000 then 0x4802 else 0 }

/-- A VM about to execute `TRAP GETC` (word 0xF020) at `PC = 0x3000`
with one pending input byte 0x41. -/
def getcState : VM :=
  { defaultVM with
    mem := fun a => if a = 0x3000 then 0xF020 else 0
    reader := [0x41] }

/-- A VM about to execute `ADD R0,R0,#0` (word 0x1020) at
`PC = 0xFFFF`, the last address. -/
def pcOverflowState : VM :=
  { defaultVM with
    mem := fun a => if a = 0xFFFF then 0x1020 else 0
    regs := fun r => (match r with | .rpc => 0xFFFF | _ => 0) }

/-- A VM distinguishing zero-extension from sign-extension of a 9-bit
offset: `PC = 0x3000`, cell `PC + 511 = 0x31FF` holds 99 and cell
`PC - 1 = 0x2FFF` holds 7. -/
def ldBugState : VM :=
  { defaultVM with
    mem := fun a => if a = 0x31FF then 99 else if a = 0x2FFF then 7 else 0 }

/-- A VM with `PC = 0xFE00` (the architecture's KBSR address), zeroed
memory and one pending input byte 0x41: `LD r0, #0` reads KBSR. -/
def kbsrTestState : VM :=
  { defaultVM with
    regs := fun r => (match r with | .rpc => 0xFE00 | _ => 0)
    reader := [0x41] }

/-- The state produced by executing `LD r0, #0` in `kbsrTestState`. -/
def c3wResult : VM :=
  setReg (uf (setReg kbsrTestState .r0 0) .r0) .rpc 0xFE01

/-- The state produced by executing `ADD r0, r0, #5` in `defaultVM`. -/
def c6wResult : VM :=
  setReg (uf (setReg defaultVM .r0 (wrapAdd (defaultVM.regs .r0) 5)) .r0) .rpc 0x3001

/-! ## Helper lemmas -/

/-- `regOfNat` succeeds on every value below 8. -/
lemma regOfNat_lt8 (v : Nat) (h : v < 8) : ∃ r, regOfNat v = some r := by
  interval_cases v <;> exact ⟨_, rfl⟩

/-- The `dr` field extractor always succeeds (its argument is masked). -/
lemma Reg.dr_isSome (w : Nat) : ∃ r, Reg.dr w = some r := by
  unfold Reg.dr
  exact regOfNat_lt8 _ (Nat.lt_succ_of_le Nat.and_le_right)

/-- The `sr1` field extractor always succeeds. -/
lemma Reg.sr1_isSome (w : Nat) : ∃ r, Reg.sr1 w = some r := by
  unfold Reg.sr1
  exact regOfNat_lt8 _ (Nat.lt_succ_of_le Nat.and_le_right)

/-- The `sr2` field extractor always succeeds. -/
lemma Reg.sr2_isSome (w : Nat) : ∃ r, Reg.sr2 w = some r := by
  unfold Reg.sr2
  exact regOfNat_lt8 _ (Nat.lt_succ_of_le Nat.and_le_right)

/-- After the `insert dr; uf dr; inc_rpc` tail shared by every
register-writing instruction, the condition register holds the flag of
the written value and the destination still holds that value. -/
lemma after_write (s : VM) (dr : Reg) (v : Nat) (s1 : VM)
    (hgpr : dr.isGPR = true)
    (h : inc_rpc (uf (setReg s dr v) dr) = some s1) :
    s1.regs .rcnd = (if v = 0 then 2 else if v >>> 15 = 1 then 4 else 1)
    ∧ s1.regs dr = v := by
  have hd1 : dr ≠ Reg.rpc := by cases dr <;> simp_all [Reg.isGPR]
  have hd2 : dr ≠ Reg.rcnd := by cases dr <;> simp_all [Reg.isGPR]
  unfold inc_rpc at h
  cases hc : checkedAdd ((uf (setReg s dr v) dr).regs Reg.rpc) 1 with
  | none => rw [hc] at h; simp at h
  | some n =>
    rw [hc] at h
    simp only [Option.map_some', Option.some.injEq] at h
    subst h
    have hv : (setReg s dr v).regs dr = v := by simp [setReg]
    constructor
    · unfold uf
      simp only [hv]
      by_cases h0 : v = 0
      · simp [h0, setReg]
      · by_cases h15 : v >>> 15 = 1
        · simp [h0, h15, setReg]
        · simp [h0, h15, setReg]
    · unfold uf
      simp only [hv]
      by_cases h0 : v = 0
      · simp [h0, setReg, hd1, hd2]
      · by_cases h15 : v >>> 15 = 1 <;> simp [h0, h15, setReg, hd1, hd2]

/-- The conclusion of the condition-code claim, phrased on the final
state, follows from `after_write`. -/
lemma write_conclusion (s : VM) (dr : Reg) (v : Nat) (s1 : VM)
    (hgpr : dr.isGPR = true)
    (h : inc_rpc (uf (setReg s dr v) dr) = some s1) :
    s1.regs .rcnd =
      (if s1.regs dr = 0 then 2 else if (s1.regs dr) >>> 15 = 1 then 4 else 1)
    ∧ (s1.regs .rcnd = 1 ∨ s1.regs .rcnd = 2 ∨ s1.regs .rcnd = 4) := by
  obtain ⟨h1, h2⟩ := after_write s dr v s1 hgpr h
  rw [h2, h1]
  refine ⟨rfl, ?_⟩
  by_cases h0 : v = 0
  · simp [h0]
  · by_cases h15 : v >>> 15 = 1 <;> simp [h0, h15]

/-- The `insert; uf; inc_rpc` tail touches only registers: memory and
both I/O collaborators are untouched. -/
lemma frame_after_write (s : VM) (dr : Reg) (v : Nat) (s1 : VM)
    (h : inc_rpc (uf (setReg s dr v) dr) = some s1) :
    s1.mem = s.mem ∧ s1.reader = s.reader ∧ s1.writer = s.writer := by
  unfold inc_rpc at h
  cases hc : checkedAdd ((uf (setReg s dr v) dr).regs Reg.rpc) 1 with
  | none => rw [hc] at h; simp at h
  | some n =>
    rw [hc] at h
    simp only [Option.map_some', Option.some.injEq] at h
    subst h
    unfold uf
    refine ⟨?_, ?_, ?_⟩ <;> · split <;> (try split) <;> rfl

/-! ## Claim theorems -/

/-- C1: the claim says PC is advanced immediately after fetch, before
execution, so JSR leaves R7 = address of the instruction after the
call.  The code does neither: `VM::run` never touches PC, and
`Jsr::execute` stores the pre-increment PC.  Evaluating the code on a
`JSR +2` fetched at address 0x3000 leaves R7 = 0x3000 (the call's own
address, not 0x3001) and PC = 0x3002. -/
theorem c1_jsr_saves_call_address_bug :
    decode 0x4802 = some (.jsr 2)
    ∧ ((step jsrState).map fun s => (s.regs .r7, s.regs .rpc)) = some (0x3000, 0x3002)
    ∧ (0x3000 : Nat) ≠ 0x3001 := by
  decide

/-- C2: the claim says the decoder sign-extends the 9/11/6-bit offset
fields.  The code's `poff9`/`poff11`/`poff` only mask; `sext` is applied
to the 5-bit immediate alone.  On the word 0x21FF (`LD r0` with offset
field 0x1FF = -1) the decoder yields the zero-extended 0x1FF, and the
execution reads `PC + 511` (= 0x31FF, holding 99) instead of `PC - 1`
(= 0x2FFF, holding 7). -/
theorem c2_offsets_not_sign_extended_bug :
    decode 0x21FF = some (.ld .r0 0x1FF)
    ∧ sext 0x1FF 9 = 0xFFFF
    ∧ (0x1FF : Nat) ≠ 0xFFFF
    ∧ ((execute (.ld .r0 0x1FF) ldBugState).map fun s => s.regs .r0) = some 99
    ∧ memRead ldBugState 0x31FF = 99
    ∧ memRead ldBugState 0x2FFF = 7 := by
  decide

/-- C3 counterexample: with an input byte pending, a load whose address
is the architecture's KBSR cell (0xFE00) returns the stored 0, consumes
no input, and leaves both KBSR and KBDR at 0 — no ready bit is set
(0 >>> 15 is not 1) and the pending byte 0x41 is not copied into KBDR,
contradicting the claimed polling behaviour. -/
theorem c3_kbsr_read_pure_counterexample :
    ((execute (.ld .r0 0) kbsrTestState).map
      fun s => (s.regs .r0, s.reader, s.mem 0xFE00, s.mem 0xFE02)) = some (0, [0x41], 0, 0)
    ∧ (0 : Nat) >>> 15 ≠ 1
    ∧ (0 : Nat) ≠ 0x41 := by
  decide

/-- C3 (amended): every memory-reading instruction (LD, LDI, LDR) is a
pure lookup with no side effect at every address, KBSR/KBDR included:
memory, the input collaborator and the output collaborator are unchanged
by the read. -/
theorem c3_loads_have_no_side_effects (i : Instr) (s s1 : VM)
    (hload : i.isLoad = true) (hex : execute i s = some s1) :
    s1.mem = s.mem ∧ s1.reader = s.reader ∧ s1.writer = s.writer := by
  cases i <;> simp [Instr.isLoad] at hload
  case ld dr offset =>
    simp only [execute] at hex
    cases hc : checkedAdd (s.regs Reg.rpc) offset with
    | none => rw [hc] at hex; simp at hex
    | some a =>
      rw [hc] at hex
      exact frame_after_write s dr (memRead s a) s1 hex
  case ldi dr offset =>
    simp only [execute] at hex
    cases hc : checkedAdd (s.regs Reg.rpc) offset with
    | none => rw [hc] at hex; simp at hex
    | some a =>
      rw [hc] at hex
      exact frame_after_write s dr (memRead s (memRead s a)) s1 hex
  case ldr dr base offset =>
    simp only [execute] at hex
    cases hc : checkedAdd (s.regs base) offset with
    | none => rw [hc] at hex; simp at hex
    | some a =>
      rw [hc] at hex
      exact frame_after_write s dr (memRead s a) s1 hex

/-- Witness for the amended C3 theorem: `LD r0, #0` executed in
`kbsrTestState` (PC at KBSR, a byte pending) yields `c3wResult`, whose
memory, reader and writer equal the originals. -/
theorem c3_loads_have_no_side_effects_witness :
    c3wResult.mem = kbsrTestState.mem
    ∧ c3wResult.reader = kbsrTestState.reader
    ∧ c3wResult.writer = kbsrTestState.writer :=
  c3_loads_have_no_side_effects (.ld .r0 0) kbsrTestState c3wResult rfl rfl

/-- C4: the claim says every non-HALT trap first saves the return
address into R7.  No trap handler in the code touches R7.  Evaluating
`TRAP GETC` fetched at 0x3000 with a pending byte: R7 stays 0 (not the
return address 0x3001) while the byte lands in R0 and PC advances. -/
theorem c4_traps_do_not_save_r7_bug :
    decode 0xF020 = some .trapGetC
    ∧ ((step getcState).map fun s => (s.regs .r7, s.regs .r0, s.regs .rpc))
        = some (0, 0x41, 0x3001)
    ∧ (0 : Nat) ≠ 0x3001 := by
  decide

/-- C5: decoding a 16-bit word fails exactly on the two reserved
opcodes 0b1000 and 0b1101 and on TRAP words whose low-8-bit vector is
outside 0x20..0x27; it succeeds on every other word. -/
theorem c5_decode_domain (w : Nat) (hw : w < 65536) :
    decode w = none ↔ badWord w := by
  obtain ⟨d1, hd1⟩ := Reg.dr_isSome w
  obtain ⟨d2, hd2⟩ := Reg.sr1_isSome w
  obtain ⟨d3, hd3⟩ := Reg.sr2_isSome w
  have hop : w >>> 12 < 16 := by
    rw [Nat.shiftRight_eq_div_pow]
    omega
  unfold decode badWord
  generalize hgen : w >>> 12 = o
  rw [hgen] at hop
  interval_cases o
  · simp
  · by_cases hf : fimm w <;> simp [hf, hd1, hd2, hd3]
  · simp [hd1]
  · simp [hd1]
  · by_cases hb : getNthBit w 11 <;> simp [hb, hd2]
  · by_cases hf : fimm w <;> simp [hf, hd1, hd2, hd3]
  · simp [hd1, hd2]
  · simp [hd1, hd2]
  · simp
  · simp [hd1, hd2]
  · simp [hd1]
  · simp [hd1]
  · simp [hd2]
  · simp
  · simp [hd1]
  · generalize hv : w &&& 255 = v
    have hvle : v ≤ 255 := by rw [← hv]; exact Nat.and_le_right
    interval_cases v <;> simp

/-- Witness for C5 at the reserved opcode 0b1000 (word 0x8000). -/
theorem c5_decode_domain_witness :
    (0x8000 : Nat) < 65536 ∧ (decode 0x8000 = none ↔ badWord 0x8000) :=
  ⟨by decide, c5_decode_domain 0x8000 (by decide)⟩

/-- C6: after any instruction that writes a general-purpose register
(ADD, AND, NOT, LD, LDI, LDR, LEA), the condition register holds the
zero flag (2) if the written value is 0, else the negative flag (4) if
bit 15 is set, else the positive flag (1); exactly one of the three
one-hot flag values is present. -/
theorem c6_condition_code_update (i : Instr) (dr : Reg) (s s1 : VM)
    (hdest : i.dest = some dr) (hgpr : dr.isGPR = true)
    (hex : execute i s = some s1) :
    s1.regs .rcnd =
      (if s1.regs dr = 0 then 2 else if (s1.regs dr) >>> 15 = 1 then 4 else 1)
    ∧ (s1.regs .rcnd = 1 ∨ s1.regs .rcnd = 2 ∨ s1.regs .rcnd = 4) := by
  cases i <;> simp only [Instr.dest, Option.some.injEq, reduceCtorEq] at hdest
  case addConst dr0 sr v =>
    subst hdest
    exact write_conclusion _ _ _ _ hgpr hex
  case addReg dr0 sr1 sr2 =>
    subst hdest
    exact write_conclusion _ _ _ _ hgpr hex
  case andConst dr0 sr v =>
    subst hdest
    exact write_conclusion _ _ _ _ hgpr hex
  case andReg dr0 sr1 sr2 =>
    subst hdest
    exact write_conclusion _ _ _ _ hgpr hex
  case not dr0 sr =>
    subst hdest
    exact write_conclusion _ _ _ _ hgpr hex
  case ld dr0 offset =>
    subst hdest
    simp only [execute] at hex
    cases hc : checkedAdd (s.regs Reg.rpc) offset with
    | none => rw [hc] at hex; simp at hex
    | some a =>
      rw [hc] at hex
      exact write_conclusion _ _ _ _ hgpr hex
  case ldi dr0 offset =>
    subst hdest
    simp only [execute] at hex
    cases hc : checkedAdd (s.regs Reg.rpc) offset with
    | none => rw [hc] at hex; simp at hex
    | some a =>
      rw [hc] at hex
      exact write_conclusion _ _ _ _ hgpr hex
  case ldr dr0 base offset =>
    subst hdest
    simp only [execute] at hex
    cases hc : checkedAdd (s.regs base) offset with
    | none => rw [hc] at hex; simp at hex
    | some a =>
      rw [hc] at hex
      exact write_conclusion _ _ _ _ hgpr hex
  case lea dr0 offset =>
    subst hdest
    simp only [execute] at hex
    cases hc : checkedAdd (s.regs Reg.rpc) offset with
    | none => rw [hc] at hex; simp at hex
    | some a =>
      rw [hc] at hex
      exact write_conclusion _ _ _ _ hgpr hex

/-- Witness for C6: `ADD r0, r0, #5` executed in the default VM yields
`c6wResult`, whose condition register is the positive flag of the
written r0. -/
theorem c6_condition_code_update_witness :
    c6wResult.regs .rcnd =
      (if c6wResult.regs .r0 = 0 then 2 else if (c6wResult.regs .r0) >>> 15 = 1 then 4 else 1)
    ∧ (c6wResult.regs .rcnd = 1 ∨ c6wResult.regs .rcnd = 2 ∨ c6wResult.regs .rcnd = 4) :=
  c6_condition_code_update (.addConst .r0 .r0 5) .r0 defaultVM c6wResult rfl rfl rfl

/-- C7 counterexample: the claim says COND starts at the zero-flag
value; `VM::default` initialises the condition register to 0, which is
not the flag `uf` assigns to a zero result (`1 << 1` = 2). -/
theorem c7_cond_init_counterexample :
    defaultVM.regs .rcnd = 0 ∧ defaultVM.regs .rcnd ≠ FL_ZRO := by
  decide

/-- C7 (amended): at construction the eight general-purpose registers
are 0, PC is the load origin 0x3000, the halt flag is clear, and COND
is 0 — no condition flag set — rather than the zero-flag value. -/
theorem c7_initial_register_values :
    defaultVM.regs .r0 = 0 ∧ defaultVM.regs .r1 = 0 ∧ defaultVM.regs .r2 = 0
    ∧ defaultVM.regs .r3 = 0 ∧ defaultVM.regs .r4 = 0 ∧ defaultVM.regs .r5 = 0
    ∧ defaultVM.regs .r6 = 0 ∧ defaultVM.regs .r7 = 0
    ∧ defaultVM.regs .rpc = PC_START ∧ PC_START = 0x3000
    ∧ defaultVM.regs .rcnd = 0 ∧ defaultVM.halt = false := by
  decide

/-- C8: the claim says PC and address arithmetic always wraps modulo
2^16.  `VM::inc_rpc` and the load/store address computations use Rust's
overflow-checked `+`, which aborts instead of wrapping: stepping the VM
on `ADD R0,R0,#0` fetched at PC = 0xFFFF aborts (no successor state)
where the claim requires PC to wrap to 0. -/
theorem c8_pc_increment_overflow_bug :
    decode 0x1020 = some (.addConst .r0 .r0 0)
    ∧ (step pcOverflowState).isNone = true := by
  decide

/-- C9: running `ADD R1,R1,#3; ADD R2,R2,#4; ADD R0,R1,R2; HALT` from
the default state (all general-purpose registers zero) terminates with
the halt flag set, R0 = 7, R1 = 3, R2 = 4. -/
theorem c9_sample_program :
    ((run 4 s9).map fun s => (s.halt, s.regs .r0, s.regs .r1, s.regs .r2))
      = some (true, 7, 3, 4) := by
  decide

/-- C10: executing the HALT trap only sets the halt flag: registers,
memory, the input collaborator and the output collaborator of every
state are untouched. -/
theorem c10_halt_frame (s : VM) :
    execute .trapHalt s = some { s with halt := true } :=
  rfl

end LC3
